import Mathlib

/-!
Verification development for a genetic-algorithm basketball simulator
(source: main.py). The simulation core is embedded shallowly:

* 2D vectors over the exact reals replace pygame.Vector2 floats;
* the process-wide random generator of the random module is modelled as a
  counter plus an abstract stream of naturals; randint and random are
  implemented from that stream so that their documented range contracts
  (lo <= randint lo hi <= hi, 0 <= random () < 1) are provable, not assumed;
* fallible operations (list indexing of population[0], Vector2.normalize on
  the zero vector) return Option, none standing for a raised exception;
* the drawing layer, pygame setup, and the outer frame loop are out of
  scope, matching the specification's stated scope.

Field and function names follow the source.  gene_i never exceeds the gene
list length in any state reachable through the public operations (apply_gene
compares gene_i with the length before indexing), so list reads use getD.
-/

open Classical

-- Window settings (main.py lines 7-9)
noncomputable def WINDOW_WIDTH : ℝ := 720
noncomputable def WINDOW_HEIGHT : ℝ := 720
noncomputable def UNIT : ℝ := 100

-- Physics simulation settings (main.py lines 12-17)
def FPS : ℕ := 60
noncomputable def HZ : ℝ := 1 / (FPS : ℝ)
noncomputable def GRAVITY : ℝ := 9.81
noncomputable def AIR_FRICTION : ℝ := 0.008
def SHOT_DURATION : ℚ := 7
def MUTATION_CHANCE : ℚ := 0

/-- Two-dimensional vector over the reals, standing for pygame.Vector2. -/
structure Vec2 where
  x : ℝ
  y : ℝ

instance : Add Vec2 := ⟨fun a b => ⟨a.x + b.x, a.y + b.y⟩⟩

instance : Sub Vec2 := ⟨fun a b => ⟨a.x - b.x, a.y - b.y⟩⟩

instance : HMul Vec2 ℝ Vec2 := ⟨fun v c => ⟨v.x * c, v.y * c⟩⟩

/-- Euclidean norm, pygame Vector2.length. -/
noncomputable def Vec2.length (v : Vec2) : ℝ :=
  Real.sqrt (v.x * v.x + v.y * v.y)

/-- pygame Vector2.normalize: raises ValueError on the zero vector. -/
noncomputable def Vec2.normalize? (v : Vec2) : Option Vec2 :=
  if v.length = 0 then none else some ⟨v.x / v.length, v.y / v.length⟩

/-- pygame Vector2.reflect off a unit surface normal: v - 2 (v . n) n.
The only call site passes a freshly normalized vector. -/
def Vec2.reflect (v n : Vec2) : Vec2 :=
  ⟨v.x - 2 * (v.x * n.x + v.y * n.y) * n.x,
   v.y - 2 * (v.x * n.x + v.y * n.y) * n.y⟩

/-- pygame Vector2.rotate: counter-clockwise rotation by d degrees. -/
noncomputable def Vec2.rotate (v : Vec2) (d : ℝ) : Vec2 :=
  ⟨v.x * Real.cos (d * Real.pi / 180) - v.y * Real.sin (d * Real.pi / 180),
   v.x * Real.sin (d * Real.pi / 180) + v.y * Real.cos (d * Real.pi / 180)⟩

/-- The process-wide random generator: a position in an abstract stream of
natural numbers.  Each primitive draw consumes one stream element. -/
abbrev Rng : Type := ℕ × (ℕ → ℕ)

/-- random.randint lo hi: the library contract lo <= result <= hi is realised
by reducing the current stream element modulo the size of the range. -/
def randint (lo hi : ℤ) (r : Rng) : ℤ × Rng :=
  (lo + (r.2 r.1 : ℤ) % (hi - lo + 1), (r.1 + 1, r.2))

/-- random.random: a value in [0, 1), realised with denominator 1000. -/
def rand01 (r : Rng) : ℚ × Rng :=
  (((r.2 r.1 % 1000 : ℕ) : ℚ) / 1000, (r.1 + 1, r.2))

/-- Ball state (class Basketball).  mass, invmass, radius and elasticity are
set in the constructor and never written again, so they are global constants
below rather than fields; fframe and frame belong to the excluded drawing
layer. -/
structure Basketball where
  position : Vec2
  velocity : Vec2
  force : Vec2
  gene_dir : List ℤ
  gene_strength : List ℤ
  gene_i : ℕ

noncomputable def mass : ℝ := 0.625
noncomputable def invmass : ℝ := 1 / mass
noncomputable def radius : ℝ := 0.121 * 4
noncomputable def elasticity : ℝ := 0.8

/-- Basketball.__init__: a ball at rest with no genes yet. -/
def Basketball.init (p : Vec2) : Basketball :=
  ⟨p, ⟨0, 0⟩, ⟨0, 0⟩, [], [], 0⟩

/-- Basketball.create_genes: three fresh (direction, strength) draws,
gene_i reset to 0.  Draw order follows the loop: dir, strength, repeated. -/
def Basketball.create_genes (b : Basketball) (r : Rng) : Basketball × Rng :=
  let d0 := randint 0 359 r
  let s0 := randint 65 2300 d0.2
  let d1 := randint 0 359 s0.2
  let s1 := randint 65 2300 d1.2
  let d2 := randint 0 359 s1.2
  let s2 := randint 65 2300 d2.2
  ({ b with gene_i := 0,
            gene_dir := [d0.1, d1.1, d2.1],
            gene_strength := [s0.1, s1.1, s2.1] }, s2.2)

/-- Basketball.apply_gene: early return when gene_i equals the gene list
length, otherwise set the force from the current gene and advance gene_i. -/
noncomputable def Basketball.apply_gene (b : Basketball) : Basketball :=
  if b.gene_i = b.gene_dir.length then b
  else
    { b with
      force := Vec2.rotate ⟨1, 0⟩ (b.gene_dir.getD b.gene_i 0 : ℝ) *
                 ((b.gene_strength.getD b.gene_i 0 : ℤ) : ℝ),
      gene_i := b.gene_i + 1 }

/-- Basketball.fitness: distance to the hoop target, clamped at 7 meters and
rescaled into [0, 1]. -/
noncomputable def Basketball.fitness (b : Basketball) : ℝ :=
  let f := (b.position - Vec2.mk 5.85 2.6).length
  let f2 := if f > 7 then 7 else f
  (7 - f2) / 7

/-- Basketball.update: one physics tick.  none models the ValueError raised
by normalize() when the ball sits exactly on the clamped net center. -/
noncomputable def Basketball.update (b : Basketball) (dt : ℝ) : Option Basketball :=
  let velocity1 := b.velocity + (b.force * invmass + Vec2.mk 0 GRAVITY) * dt
  let future_vel := velocity1 * dt
  let vx :=
    if b.position.x + future_vel.x - radius < 0 ∨
       b.position.x + future_vel.x + radius > WINDOW_WIDTH / UNIT
    then velocity1.x * -elasticity else velocity1.x
  let vy :=
    if b.position.y + future_vel.y - radius < 0 ∨
       b.position.y + future_vel.y + radius > WINDOW_HEIGHT / UNIT
    then velocity1.y * -elasticity else velocity1.y
  let velocity2 := Vec2.mk vx vy
  let net := Vec2.mk (max 5.3 b.position.x) 3.2
  let dist := (net - (b.position + future_vel)).length
  let radii := radius + 0.3
  let finish := fun (v : Vec2) =>
    let v3 := v * (1 - AIR_FRICTION)
    { b with velocity := v3, position := b.position + v3 * dt,
             force := Vec2.mk 0 0 }
  if dist ≤ radii then
    match (net - b.position).normalize? with
    | none => none
    | some normal => some (finish (velocity2.reflect normal * elasticity))
  else some (finish velocity2)

/-- Generation state: the population plus the shared shot timer last_gene. -/
structure Generation where
  population : List Basketball
  last_gene : ℕ

/-- State-passing map of a draw-consuming function down the population list,
in the iteration order of the source loops. -/
def mapRng (f : Basketball → Rng → Basketball × Rng) :
    List Basketball → Rng → List Basketball × Rng
  | [], r => ([], r)
  | b :: l, r =>
    let br := f b r
    let rest := mapRng f l br.2
    (br.1 :: rest.1, rest.2)

/-- Generation.__init__: population copies of the fresh ball at
(50/UNIT, 650/UNIT), random genes, then the first gene applied to all. -/
noncomputable def Generation.init (population : ℕ) (r : Rng) : Generation × Rng :=
  let balls := List.replicate population (Basketball.init ⟨50 / UNIT, 650 / UNIT⟩)
  let br := mapRng Basketball.create_genes balls r
  (⟨br.1.map Basketball.apply_gene, 0⟩, br.2)

/-- Generation.highest_fitness: last element of the sorted fitness list,
i.e. the maximum; none models the IndexError on an empty population. -/
noncomputable def Generation.highest_fitness (g : Generation) : Option ℝ :=
  match g.population.map Basketball.fitness with
  | [] => none
  | x :: l => some (l.foldl max x)

/-- Generation.winner: first ball whose fitness equals the maximum. -/
noncomputable def Generation.winner (g : Generation) : Option Basketball :=
  match g.highest_fitness with
  | none => none
  | some h => g.population.find? fun b => decide (b.fitness = h)

/-- Sequential physics step over the population; none propagates a failing
ball update (the source loop would raise out of Generation.update). -/
noncomputable def updBalls (dt : ℝ) : List Basketball → Option (List Basketball)
  | [] => some []
  | b :: l =>
    match b.update dt, updBalls dt l with
    | some b2, some l2 => some (b2 :: l2)
    | _, _ => none

/-- Generation.update: advance the shot timer, fire the next gene on
overflow or report completion, then step every ball's physics. -/
noncomputable def Generation.update (g : Generation) (dt : ℝ) :
    Option (Bool × Generation) :=
  let t := g.last_gene + 1
  if ((t : ℚ) > (FPS : ℚ) * SHOT_DURATION) then
    match g.population with
    | [] => none
    | b0 :: _ =>
      if b0.gene_i = 3 then some (true, ⟨g.population, 0⟩)
      else
        match updBalls dt (g.population.map Basketball.apply_gene) with
        | none => none
        | some pop => some (false, ⟨pop, 0⟩)
  else
    match updBalls dt g.population with
    | none => none
    | some pop => some (false, ⟨pop, t⟩)

/-- Iterated calls to Generation.update, collecting the returned booleans. -/
noncomputable def Generation.run (dt : ℝ) :
    Generation → ℕ → Option (List Bool × Generation)
  | g, 0 => some ([], g)
  | g, n + 1 =>
    match Generation.update g dt with
    | none => none
    | some br =>
      match Generation.run dt br.2 n with
      | none => none
      | some rest => some (br.1 :: rest.1, rest.2)

/-- Solver state (class Solver). -/
structure Solver where
  population : ℕ
  generation : Generation
  generation_n : ℕ

/-- Solver.__init__. -/
noncomputable def Solver.init (population : ℕ) (r : Rng) : Solver × Rng :=
  let gr := Generation.init population r
  (⟨population, gr.1, 0⟩, gr.2)

/-- One gene slot of the inheritance loop in Solver.next_generation, with
the draw order of the source: inherit chance, then (inside the inherit
branch) one mutation draw per component. -/
def geneSlot (w : Basketball) (i : ℕ) (r : Rng) : (ℤ × ℤ) × Rng :=
  let p := rand01 r
  if p.1 < 3 / 4 then
    let m1 := rand01 p.2
    let d := if m1.1 < MUTATION_CHANCE then randint 0 359 m1.2
             else (w.gene_dir.getD i 0, m1.2)
    let m2 := rand01 d.2
    let s := if m2.1 < MUTATION_CHANCE then randint 65 2300 m2.2
             else (w.gene_strength.getD i 0, m2.2)
    ((d.1, s.1), s.2)
  else
    let d := randint 0 359 p.2
    let s := randint 65 2300 d.2
    ((d.1, s.1), s.2)

/-- Gene overwrite of one ball of the new generation. -/
def overwriteBall (w b : Basketball) (r : Rng) : Basketball × Rng :=
  let g0 := geneSlot w 0 r
  let g1 := geneSlot w 1 g0.2
  let g2 := geneSlot w 2 g1.2
  ({ b with gene_dir := [g0.1.1, g1.1.1, g2.1.1],
            gene_strength := [g0.1.2, g1.1.2, g2.1.2] }, g2.2)

/-- Solver.next_generation: capture the winner, build a brand-new random
generation, then overwrite every ball's gene lists from the winner. -/
noncomputable def Solver.next_generation (s : Solver) (r : Rng) :
    Option (Solver × Rng) :=
  match Generation.winner s.generation with
  | none => none
  | some w =>
    let gr := Generation.init s.population r
    let pr := mapRng (overwriteBall w) gr.1.population gr.2
    some ({ s with generation := ⟨pr.1, gr.1.last_gene⟩,
                   generation_n := s.generation_n + 1 }, pr.2)

/-- Solver.update: advance the generation; on completion advance to the
next generation (the print call is external observability). -/
noncomputable def Solver.update (s : Solver) (dt : ℝ) (r : Rng) :
    Option (Solver × Rng) :=
  match s.generation.update dt with
  | none => none
  | some br =>
    let s2 := { s with generation := br.2 }
    if br.1 then s2.next_generation r else some (s2, r)

/-- Abstraction of Generation.update's bookkeeping: (shot timer, shared
gene index) before a call determine the returned boolean and the new pair. -/
def geneStep (s : ℕ × ℕ) : Bool × (ℕ × ℕ) :=
  if s.1 + 1 > 420 then
    (if s.2 = 3 then (true, (0, s.2)) else (false, (0, s.2 + 1)))
  else (false, (s.1 + 1, s.2))

/-- Iterate geneStep, keeping only the state. -/
def iterStep : ℕ → ℕ × ℕ → ℕ × ℕ
  | 0, s => s
  | n + 1, s => iterStep n (geneStep s).2

/-- All of the first n abstract calls return false. -/
def stepsAllFalse : ℕ → ℕ × ℕ → Bool
  | 0, _ => true
  | n + 1, s => !(geneStep s).1 && stepsAllFalse n (geneStep s).2

/-- State of a freshly constructed Generation: nonempty population, timer 0,
all balls with the three genes and the first one already fired. -/
def freshSpec (g : Generation) : Prop :=
  g.population ≠ [] ∧ g.last_gene = 0 ∧
    ∀ b ∈ g.population,
      b.gene_dir.length = 3 ∧ b.gene_strength.length = 3 ∧ b.gene_i = 1

/-- Simulation invariant tying a generation to the abstract timer state. -/
def schedInv (s : ℕ × ℕ) (g : Generation) : Prop :=
  g.population ≠ [] ∧
    (∀ b ∈ g.population, b.gene_dir.length = 3 ∧ b.gene_strength.length = 3) ∧
    (∀ b ∈ g.population, b.gene_i = s.2) ∧
    g.last_gene = s.1

/-- Lockstep invariant of claim C6: equal gene lengths and one shared
gene index at most 3. -/
def GenInv (g : Generation) : Prop :=
  (∀ b ∈ g.population, b.gene_dir.length = 3 ∧ b.gene_strength.length = 3) ∧
    ∃ k, k ≤ 3 ∧ ∀ b ∈ g.population, b.gene_i = k

/-- Gene bounds invariant of claim C9. -/
def GenesOK (b : Basketball) : Prop :=
  b.gene_dir.length = 3 ∧ b.gene_strength.length = 3 ∧
    (∀ d ∈ b.gene_dir, 0 ≤ d ∧ d ≤ 359) ∧
    ∀ s ∈ b.gene_strength, 65 ≤ s ∧ s ≤ 2300

-- Concrete inputs used by counterexamples and witnesses.

/-- The all-zero random stream. -/
def rng0 : Rng := (0, fun _ => 0)

/-- A random stream whose draws land in the non-inherit branch. -/
def rng9 : Rng := (0, fun _ => 900)

/-- Resting ball with force f and gene index k, away from walls and hoop. -/
noncomputable def qb (f : Vec2) (k : ℕ) : Basketball :=
  ⟨⟨0.5, 6.5⟩, ⟨0, 0⟩, f, [0, 0, 0], [65, 65, 65], k⟩

/-- Singleton quiet generation at gene index k and timer t. -/
noncomputable def genW (k t : ℕ) : Generation := ⟨[qb ⟨0, 0⟩ k], t⟩

/-- Boolean trace of the first 1262 update calls of the C1 witness. -/
def bsW : List Bool :=
  List.replicate 420 false ++ [false] ++ List.replicate 420 false ++ [false] ++
    List.replicate 420 false

/-- Ball of the C2 scenario before its 90-degree, strength-1000 gene. -/
noncomputable def c2ball : Basketball :=
  ⟨⟨0.5, 6.5⟩, ⟨0, 0⟩, ⟨0, 0⟩, [90, 0, 0], [1000, 65, 65], 0⟩

/-- The C2 ball with its first gene fired. -/
noncomputable def c2shot : Basketball :=
  ⟨⟨0.5, 6.5⟩, ⟨0, 0⟩, ⟨0, 1000⟩, [90, 0, 0], [1000, 65, 65], 1⟩

/-- Exact state after the first physics tick of the C2 scenario: the ball
bounces off the floor (y points down), so it moves up-screen. -/
noncomputable def c2res : Basketball :=
  ⟨⟨0.5, 6.5 - 1609.81 * 0.8 * 0.992 / 3600⟩,
   ⟨0, -(1609.81 * 0.8 * 0.992 / 60)⟩,
   ⟨0, 0⟩, [90, 0, 0], [1000, 65, 65], 1⟩

/-- Falling ball about to cross the floor, used by the C7 witness. -/
noncomputable def c7ball : Basketball :=
  ⟨⟨3, 7⟩, ⟨0, 1⟩, ⟨0, 0⟩, [0, 0, 0], [65, 65, 65], 3⟩

/-- Ball resting exactly at the clamped net center (5.3, 3.2). -/
noncomputable def c10ball : Basketball :=
  ⟨⟨5.3, 3.2⟩, ⟨0, 0⟩, ⟨0, 0⟩, [0, 0, 0], [65, 65, 65], 1⟩

/-- Agent with all three shots fired, for the C8 witness. -/
def c8ball : Basketball :=
  ⟨⟨0, 0⟩, ⟨0, 0⟩, ⟨0, 0⟩, [0, 0, 0], [65, 65, 65], 3⟩

/-- The single ball of Generation.init 1 rng0, written out: the constructor
drew the all-zero genes and already applied throwaway gene 0. -/
noncomputable def c4ballInit : Basketball :=
  ⟨⟨50 / UNIT, 650 / UNIT⟩, ⟨0, 0⟩,
   Vec2.rotate ⟨1, 0⟩ ((0 : ℤ) : ℝ) * ((65 : ℤ) : ℝ),
   [0, 0, 0], [65, 65, 65], 1⟩

/-- Solver about to advance: one quiet agent, generation counter 0. -/
noncomputable def c4solver : Solver := ⟨1, ⟨[qb ⟨0, 0⟩ 1], 0⟩, 0⟩

/-- Result of Solver.next_generation c4solver rng0: the inherited genes
equal the constructor's draws on the all-zero stream, 15 draws consumed. -/
noncomputable def c4out : Solver × Rng :=
  (⟨1, ⟨[c4ballInit], 0⟩, 1⟩, (15, rng0.2))

/-- Agent sitting exactly on the fitness target, for the C5 witness. -/
noncomputable def c5near : Basketball :=
  ⟨⟨5.85, 2.6⟩, ⟨0, 0⟩, ⟨0, 0⟩, [0, 0, 0], [65, 65, 65], 3⟩

/-- Agent one meter below the fitness target, for the C5 witness. -/
noncomputable def c5far : Basketball :=
  ⟨⟨5.85, 3.6⟩, ⟨0, 0⟩, ⟨0, 0⟩, [0, 0, 0], [65, 65, 65], 3⟩

-- Basic component lemmas for the vector operations.

@[simp] theorem Vec2.add_x (a b : Vec2) : (a + b).x = a.x + b.x := rfl

@[simp] theorem Vec2.add_y (a b : Vec2) : (a + b).y = a.y + b.y := rfl

@[simp] theorem Vec2.sub_x (a b : Vec2) : (a - b).x = a.x - b.x := rfl

@[simp] theorem Vec2.sub_y (a b : Vec2) : (a - b).y = a.y - b.y := rfl

@[simp] theorem Vec2.hmul_x (v : Vec2) (c : ℝ) : (v * c).x = v.x * c := rfl

@[simp] theorem Vec2.hmul_y (v : Vec2) (c : ℝ) : (v * c).y = v.y * c := rfl

@[simp] theorem Vec2.mk_x (a b : ℝ) : (Vec2.mk a b).x = a := rfl

@[simp] theorem Vec2.mk_y (a b : ℝ) : (Vec2.mk a b).y = b := rfl

@[simp] theorem Vec2.mk_add_mk (a b c d : ℝ) :
    (Vec2.mk a b + Vec2.mk c d) = Vec2.mk (a + c) (b + d) := rfl

@[simp] theorem Vec2.mk_sub_mk (a b c d : ℝ) :
    (Vec2.mk a b - Vec2.mk c d) = Vec2.mk (a - c) (b - d) := rfl

@[simp] theorem Vec2.mk_hmul (a b c : ℝ) :
    (Vec2.mk a b * c) = Vec2.mk (a * c) (b * c) := rfl

theorem Vec2.length_nonneg (v : Vec2) : 0 ≤ v.length := Real.sqrt_nonneg _

theorem fitness_eq (b : Basketball) :
    b.fitness = (7 - min ((b.position - Vec2.mk 5.85 2.6).length) 7) / 7 := by
  simp only [Basketball.fitness]
  by_cases h : (b.position - Vec2.mk 5.85 2.6).length > 7
  · rw [if_pos h, min_eq_right (le_of_lt h)]
  · rw [if_neg h, min_eq_left (not_lt.mp h)]

/-- C5: fitness equals (7 - min(distance to (5.85, 2.6), 7)) / 7, lies in
[0, 1], is strictly decreasing in the distance while both distances are at
most 7, and vanishes at distance at least 7. -/
theorem c5_fitness_properties :
    (∀ b : Basketball,
       b.fitness = (7 - min ((b.position - Vec2.mk 5.85 2.6).length) 7) / 7) ∧
    (∀ b : Basketball, 0 ≤ b.fitness ∧ b.fitness ≤ 1) ∧
    (∀ a b : Basketball,
       (a.position - Vec2.mk 5.85 2.6).length <
         (b.position - Vec2.mk 5.85 2.6).length →
       (b.position - Vec2.mk 5.85 2.6).length ≤ 7 →
       b.fitness < a.fitness) ∧
    (∀ b : Basketball, 7 ≤ (b.position - Vec2.mk 5.85 2.6).length →
       b.fitness = 0) := by
  refine ⟨fitness_eq, fun b => ?_, fun a b hab hb7 => ?_, fun b h7 => ?_⟩
  · rw [fitness_eq]
    have h0 : (0 : ℝ) ≤ min ((b.position - Vec2.mk 5.85 2.6).length) 7 :=
      le_min (Vec2.length_nonneg _) (by norm_num)
    have h7 : min ((b.position - Vec2.mk 5.85 2.6).length) 7 ≤ 7 :=
      min_le_right _ _
    constructor
    · apply div_nonneg _ (by norm_num); linarith
    · rw [div_le_one (by norm_num)]; linarith
  · rw [fitness_eq, fitness_eq,
      min_eq_left hb7, min_eq_left (le_of_lt (lt_of_lt_of_le hab hb7))]
    rw [div_lt_div_iff_of_pos_right (by norm_num : (0:ℝ) < 7)]
    linarith
  · rw [fitness_eq, min_eq_right h7]
    norm_num

theorem unit_rotate_length (d : ℝ) : (Vec2.rotate ⟨1, 0⟩ d).length = 1 := by
  unfold Vec2.rotate Vec2.length
  have h := Real.sin_sq_add_cos_sq (d * Real.pi / 180)
  have : (1 * Real.cos (d * Real.pi / 180) - 0 * Real.sin (d * Real.pi / 180)) *
        (1 * Real.cos (d * Real.pi / 180) - 0 * Real.sin (d * Real.pi / 180)) +
      (1 * Real.sin (d * Real.pi / 180) + 0 * Real.cos (d * Real.pi / 180)) *
        (1 * Real.sin (d * Real.pi / 180) + 0 * Real.cos (d * Real.pi / 180)) =
      1 := by nlinarith [h]
  rw [this, Real.sqrt_one]

/-- C8: apply_gene is the identity at gene index 3; below 3 it sets the
force to the unit vector rotated by the slot's direction scaled by the
slot's strength, advances gene_i, and leaves every other field unchanged;
the rotated vector has length one. -/
theorem c8_apply_gene_contract (b : Basketball) (hd : b.gene_dir.length = 3)
    (_hs : b.gene_strength.length = 3) :
    (b.gene_i = 3 → b.apply_gene = b) ∧
    (b.gene_i < 3 →
      b.apply_gene =
        { b with
          force := Vec2.rotate ⟨1, 0⟩ (b.gene_dir.getD b.gene_i 0 : ℝ) *
                     ((b.gene_strength.getD b.gene_i 0 : ℤ) : ℝ),
          gene_i := b.gene_i + 1 }) ∧
    (∀ d : ℝ, (Vec2.rotate ⟨1, 0⟩ d).length = 1) := by
  refine ⟨fun h3 => ?_, fun hlt => ?_, unit_rotate_length⟩
  · unfold Basketball.apply_gene
    rw [if_pos (by rw [hd, h3])]
  · unfold Basketball.apply_gene
    rw [if_neg (by rw [hd]; omega)]

/-- Witness for C8 at a concrete agent with all three shots fired. -/
theorem c8_apply_gene_contract_witness : c8ball.apply_gene = c8ball :=
  (c8_apply_gene_contract c8ball rfl rfl).1 rfl

theorem c5near_dist : (c5near.position - Vec2.mk 5.85 2.6).length = 0 := by
  have : (c5near.position - Vec2.mk 5.85 2.6).x *
        (c5near.position - Vec2.mk 5.85 2.6).x +
      (c5near.position - Vec2.mk 5.85 2.6).y *
        (c5near.position - Vec2.mk 5.85 2.6).y = 0 := by
    simp [c5near]
  rw [Vec2.length, this, Real.sqrt_zero]

theorem c5far_dist : (c5far.position - Vec2.mk 5.85 2.6).length = 1 := by
  have : (c5far.position - Vec2.mk 5.85 2.6).x *
        (c5far.position - Vec2.mk 5.85 2.6).x +
      (c5far.position - Vec2.mk 5.85 2.6).y *
        (c5far.position - Vec2.mk 5.85 2.6).y = 1 := by
    simp [c5far]
    norm_num
  rw [Vec2.length, this, Real.sqrt_one]

/-- Witness for C5: concrete agents at distance 0 and 1 from the target. -/
theorem c5_fitness_properties_witness :
    (c5near.position - Vec2.mk 5.85 2.6).length <
      (c5far.position - Vec2.mk 5.85 2.6).length ∧
    (c5far.position - Vec2.mk 5.85 2.6).length ≤ 7 ∧
    c5far.fitness < c5near.fitness :=
  ⟨by rw [c5near_dist, c5far_dist]; norm_num,
   by rw [c5far_dist]; norm_num,
   c5_fitness_properties.2.2.1 c5near c5far
     (by rw [c5near_dist, c5far_dist]; norm_num)
     (by rw [c5far_dist]; norm_num)⟩

/-- C10: Agent.update is not total: at position (5.3, 3.2) the clamped net
center coincides with the ball, the predicted next position stays within the
combined radius, and the hoop branch normalizes the zero vector, so the tick
raises instead of completing (modelled as none). -/
theorem c10_update_fails_on_net_center :
    5.3 ≤ c10ball.position.x ∧ c10ball.position.y = 3.2 ∧
      Basketball.update c10ball (1 / 60) = none := by
  refine ⟨le_of_eq rfl, rfl, ?_⟩
  simp only [Basketball.update, c10ball]
  norm_num [invmass, mass, radius, GRAVITY, WINDOW_WIDTH, WINDOW_HEIGHT, UNIT]
  split_ifs with h
  · simp [Vec2.normalize?, Vec2.length, Real.sqrt_zero]
  · exfalso
    apply h
    have he : (0 : ℝ) * 0 + -(109 / 40000) * -(109 / 40000) = (109 / 40000) ^ 2 := by
      ring
    rw [Vec2.length]
    dsimp only
    rw [he, Real.sqrt_sq (by norm_num)]
    norm_num

theorem c2_apply_eval : c2ball.apply_gene = c2shot := by
  unfold Basketball.apply_gene
  rw [if_neg (by simp [c2ball])]
  have hrot : Vec2.rotate ⟨1, 0⟩ (90 : ℝ) = Vec2.mk 0 1 := by
    have hθ : (90 : ℝ) * Real.pi / 180 = Real.pi / 2 := by
      ring
    unfold Vec2.rotate
    rw [hθ, Real.cos_pi_div_two, Real.sin_pi_div_two]
    norm_num
  simp [c2ball, c2shot, hrot]

theorem c2_update_eval : Basketball.update c2shot (1 / 60) = some c2res := by
  simp only [Basketball.update, c2shot, c2res]
  norm_num [invmass, mass, radius, GRAVITY, WINDOW_WIDTH, WINDOW_HEIGHT, UNIT,
    AIR_FRICTION, elasticity]
  intro h
  exfalso
  have hgt : (98 / 125 : ℝ) < Vec2.length ⟨24 / 5, -(1348981 / 360000)⟩ := by
    rw [Vec2.length]
    dsimp only
    rw [Real.lt_sqrt (by norm_num)]
    norm_num
  exact absurd h (not_le.mpr hgt)

/-- Counterexample to C2: with gene (90 degrees, 1000) the force is indeed
(0, 1000), but y points down in this world, so the first update bounces the
ball off the floor: velocity.y is negative and position.y decreases,
contradicting the claimed velocity.y > 0 and position.y > 6.5. -/
theorem c2_scenario_counterexample :
    c2ball.apply_gene.force = Vec2.mk 0 1000 ∧
    Basketball.update c2ball.apply_gene (1 / 60) = some c2res ∧
    ¬(0 < c2res.velocity.y ∧ 6.5 < c2res.position.y) := by
  rw [c2_apply_eval]
  refine ⟨rfl, c2_update_eval, ?_⟩
  rintro ⟨hv, -⟩
  rw [show c2res.velocity.y = -(1609.81 * 0.8 * 0.992 / 60) from rfl] at hv
  norm_num at hv

/-- C2 amended: after apply_current_gene the force is exactly (0, 1000); the
first update(1/60) then gives velocity.y < 0 and position.y strictly less
than 6.5, because the y axis points down and the gene fires the ball into
the floor, whose collision branch negates and damps velocity.y. -/
theorem c2_scenario_amended :
    c2ball.apply_gene.force = Vec2.mk 0 1000 ∧
    Basketball.update c2ball.apply_gene (1 / 60) = some c2res ∧
    c2res.velocity.y < 0 ∧ c2res.position.y < 6.5 := by
  rw [c2_apply_eval]
  refine ⟨rfl, c2_update_eval, ?_, ?_⟩
  · rw [show c2res.velocity.y = -(1609.81 * 0.8 * 0.992 / 60) from rfl]
    norm_num
  · rw [show c2res.position.y = 6.5 - 1609.81 * 0.8 * 0.992 / 3600 from rfl]
    norm_num

/-- C7: every successful update moves the position only in the final
integration step (new position = old position + new velocity * dt, force
reset to zero); and a straight-down fall that crosses the floor with no hoop
contact gets exactly velocity.y = -(v + GRAVITY*dt) * elasticity *
(1 - AIR_FRICTION), the collision branch having touched only the velocity. -/
theorem c7_floor_bounce :
    (∀ (b : Basketball) (dt : ℝ) (b2 : Basketball),
       Basketball.update b dt = some b2 →
       b2.position = b.position + b2.velocity * dt ∧ b2.force = Vec2.mk 0 0) ∧
    (∀ (b : Basketball) (v dt : ℝ),
       b.force = Vec2.mk 0 0 → b.velocity = Vec2.mk 0 v → 0 < v →
       WINDOW_HEIGHT / UNIT < b.position.y + (v + GRAVITY * dt) * dt + radius →
       radius + 0.3 <
         (Vec2.mk (max 5.3 b.position.x) 3.2 -
           (b.position + Vec2.mk 0 ((v + GRAVITY * dt) * dt))).length →
       ∃ b2, Basketball.update b dt = some b2 ∧
         b2.velocity.x = 0 ∧
         b2.velocity.y = -(v + GRAVITY * dt) * elasticity * (1 - AIR_FRICTION) ∧
         b2.position = b.position + b2.velocity * dt) := by
  constructor
  intro b dt b2 h
  simp only [Basketball.update] at h
  split at h
  · split at h
    · exact absurd h (by simp)
    · injection h with h
      subst h
      exact ⟨rfl, rfl⟩
  · injection h with h
    subst h
    exact ⟨rfl, rfl⟩

  intro b v dt hf hv hvpos hfloor hhoop
  simp only [Basketball.update, hf, hv, Vec2.mk_hmul, Vec2.mk_add_mk, zero_mul,
    add_zero, zero_add, mul_zero, Vec2.mk_x, Vec2.mk_y, ite_self]
  rw [if_pos (Or.inr hfloor), if_neg (not_le.mpr hhoop)]
  refine ⟨_, rfl, ?_, ?_, ?_⟩
  · simp
  · simp
    ring
  · simp

/-- Witness for C7: a unit-speed fall at (3, 7) with dt = 1/60. -/
theorem c7_floor_bounce_witness :
    ∃ b2, Basketball.update c7ball (1 / 60) = some b2 ∧
      b2.velocity.x = 0 ∧
      b2.velocity.y = -(1 + GRAVITY * (1 / 60)) * elasticity * (1 - AIR_FRICTION) ∧
      b2.position = c7ball.position + b2.velocity * ((1 : ℝ) / 60) :=
  c7_floor_bounce.2 c7ball 1 (1 / 60) rfl rfl (by norm_num)
    (by norm_num [WINDOW_HEIGHT, UNIT, GRAVITY, radius, c7ball])
    (by
      rw [show c7ball.position = Vec2.mk 3 7 from rfl,
        show radius + 0.3 = (0.784 : ℝ) from by norm_num [radius]]
      simp only [Vec2.mk_x, Vec2.mk_add_mk, Vec2.mk_sub_mk]
      rw [max_eq_left (by norm_num : (3 : ℝ) ≤ 5.3)]
      rw [Vec2.length]
      dsimp only
      rw [Real.lt_sqrt (by norm_num)]
      norm_num [GRAVITY])

theorem randint_bounds (lo hi : ℤ) (r : Rng) (h : lo ≤ hi) :
    lo ≤ (randint lo hi r).1 ∧ (randint lo hi r).1 ≤ hi := by
  unfold randint
  have hpos : (0 : ℤ) < hi - lo + 1 := by omega
  have h1 : 0 ≤ (r.2 r.1 : ℤ) % (hi - lo + 1) :=
    Int.emod_nonneg _ (by omega)
  have h2 : (r.2 r.1 : ℤ) % (hi - lo + 1) < hi - lo + 1 :=
    Int.emod_lt_of_pos _ hpos
  constructor <;> dsimp only <;> omega

theorem rand01_nonneg (r : Rng) : 0 ≤ (rand01 r).1 := by
  unfold rand01
  positivity

theorem create_genes_ok (b : Basketball) (r : Rng) :
    GenesOK (b.create_genes r).1 := by
  unfold Basketball.create_genes GenesOK
  refine ⟨rfl, rfl, ?_, ?_⟩ <;> intro z hz <;>
    simp only [List.mem_cons, List.not_mem_nil, or_false] at hz <;>
    rcases hz with h | h | h <;> rw [h]
  · exact randint_bounds 0 359 _ (by norm_num)
  · exact randint_bounds 0 359 _ (by norm_num)
  · exact randint_bounds 0 359 _ (by norm_num)
  · exact randint_bounds 65 2300 _ (by norm_num)
  · exact randint_bounds 65 2300 _ (by norm_num)
  · exact randint_bounds 65 2300 _ (by norm_num)

theorem apply_gene_genes (b : Basketball) :
    b.apply_gene.gene_dir = b.gene_dir ∧
      b.apply_gene.gene_strength = b.gene_strength := by
  unfold Basketball.apply_gene
  split <;> exact ⟨rfl, rfl⟩

theorem apply_gene_ok (b : Basketball) (h : GenesOK b) :
    GenesOK b.apply_gene := by
  unfold GenesOK at h ⊢
  rw [(apply_gene_genes b).1, (apply_gene_genes b).2]
  exact h

theorem update_genes {b b2 : Basketball} {dt : ℝ}
    (h : Basketball.update b dt = some b2) :
    b2.gene_dir = b.gene_dir ∧ b2.gene_strength = b.gene_strength ∧
      b2.gene_i = b.gene_i := by
  simp only [Basketball.update] at h
  split at h
  · split at h
    · exact absurd h (by simp)
    · injection h with h
      subst h
      exact ⟨rfl, rfl, rfl⟩
  · injection h with h
    subst h
    exact ⟨rfl, rfl, rfl⟩

theorem update_ok {b b2 : Basketball} {dt : ℝ}
    (h : Basketball.update b dt = some b2) (hb : GenesOK b) : GenesOK b2 := by
  unfold GenesOK at hb ⊢
  rw [(update_genes h).1, (update_genes h).2.1]
  exact hb

theorem mapRng_mem (f : Basketball → Rng → Basketball × Rng) :
    ∀ (l : List Basketball) (r : Rng) (b : Basketball),
      b ∈ (mapRng f l r).1 → ∃ a ∈ l, ∃ r2, b = (f a r2).1 := by
  intro l
  induction l with
  | nil => intro r b hb; simp [mapRng] at hb
  | cons a l ih =>
    intro r b hb
    simp only [mapRng, List.mem_cons] at hb
    rcases hb with h | h
    · exact ⟨a, List.mem_cons_self a l, r, h⟩
    · obtain ⟨c, hc, r2, hr⟩ := ih _ _ h
      exact ⟨c, List.mem_cons_of_mem a hc, r2, hr⟩

theorem init_genes_ok (n : ℕ) (r : Rng) :
    ∀ b ∈ (Generation.init n r).1.population, GenesOK b := by
  intro b hb
  simp only [Generation.init, List.mem_map] at hb
  obtain ⟨c, hc, hcb⟩ := hb
  obtain ⟨a, _, r2, ha⟩ := mapRng_mem Basketball.create_genes _ _ _ hc
  subst hcb
  subst ha
  exact apply_gene_ok _ (create_genes_ok a r2)

theorem updBalls_facts (dt : ℝ) :
    ∀ (l l2 : List Basketball), updBalls dt l = some l2 →
      l2.length = l.length ∧
        ∀ b2 ∈ l2, ∃ b ∈ l, Basketball.update b dt = some b2 := by
  intro l
  induction l with
  | nil =>
    intro l2 h
    simp only [updBalls] at h
    injection h with h
    subst h
    exact ⟨rfl, by simp⟩
  | cons a l ih =>
    intro l2 h
    simp only [updBalls] at h
    rcases ha : Basketball.update a dt with _ | a2 <;> rw [ha] at h
    · exact absurd h (by simp)
    · rcases hl : updBalls dt l with _ | l3 <;> rw [hl] at h
      · exact absurd h (by simp)
      · injection h with h
        subst h
        obtain ⟨hlen, hmem⟩ := ih l3 hl
        refine ⟨by simp [hlen], ?_⟩
        intro b2 hb2
        rcases List.mem_cons.mp hb2 with h | h
        · exact ⟨a, List.mem_cons_self a l, h ▸ ha⟩
        · obtain ⟨b, hb, hup⟩ := hmem b2 h
          exact ⟨b, List.mem_cons_of_mem a hb, hup⟩

theorem getD_mem_of_lt {l : List ℤ} {i : ℕ} (h : i < l.length) :
    l.getD i 0 ∈ l := by
  rw [List.getD_eq_getElem l 0 h]
  exact List.getElem_mem h

theorem gen_update_ok {g : Generation} {dt : ℝ} {out : Bool × Generation}
    (hg : ∀ b ∈ g.population, GenesOK b)
    (h : Generation.update g dt = some out) :
    ∀ b ∈ out.2.population, GenesOK b := by
  simp only [Generation.update] at h
  split at h
  · rcases hp : g.population with _ | ⟨b0, rest⟩ <;> rw [hp] at h
    · exact absurd h (by simp)
    · dsimp only at h
      split at h
      · injection h with h
        subst h
        intro b hb
        exact hg b (hp ▸ hb)
      · rcases hu : updBalls dt ((b0 :: rest).map Basketball.apply_gene) with
          _ | pop <;> rw [hu] at h
        · exact absurd h (by simp)
        · injection h with h
          subst h
          intro b hb
          obtain ⟨c, hc, hcu⟩ := (updBalls_facts dt _ _ hu).2 b hb
          obtain ⟨a, ha, rfl⟩ := List.mem_map.mp hc
          exact update_ok hcu (apply_gene_ok a (hg a (hp ▸ ha)))
  · rcases hu : updBalls dt g.population with _ | pop <;> rw [hu] at h
    · exact absurd h (by simp)
    · injection h with h
      subst h
      intro b hb
      obtain ⟨c, hc, hcu⟩ := (updBalls_facts dt _ _ hu).2 b hb
      exact update_ok hcu (hg c hc)

theorem no_mutation (r : Rng) : ¬ ((rand01 r).1 < MUTATION_CHANCE) := by
  unfold MUTATION_CHANCE
  exact not_lt.mpr (rand01_nonneg r)

theorem geneSlot_ok (w : Basketball) (i : ℕ) (r : Rng) (hw : GenesOK w)
    (hi : i < 3) :
    0 ≤ (geneSlot w i r).1.1 ∧ (geneSlot w i r).1.1 ≤ 359 ∧
      65 ≤ (geneSlot w i r).1.2 ∧ (geneSlot w i r).1.2 ≤ 2300 := by
  obtain ⟨hdl, hsl, hd, hs⟩ := hw
  unfold geneSlot
  dsimp only
  by_cases h1 : (rand01 r).1 < 3 / 4
  · rw [if_pos h1, if_neg (no_mutation _), if_neg (no_mutation _)]
    have h2 := hd _ (getD_mem_of_lt (l := w.gene_dir) (i := i) (by omega))
    have h3 := hs _ (getD_mem_of_lt (l := w.gene_strength) (i := i) (by omega))
    exact ⟨h2.1, h2.2, h3.1, h3.2⟩
  · rw [if_neg h1]
    exact ⟨(randint_bounds 0 359 _ (by norm_num)).1,
      (randint_bounds 0 359 _ (by norm_num)).2,
      (randint_bounds 65 2300 _ (by norm_num)).1,
      (randint_bounds 65 2300 _ (by norm_num)).2⟩

theorem overwriteBall_ok (w b : Basketball) (r : Rng) (hw : GenesOK w) :
    GenesOK (overwriteBall w b r).1 := by
  unfold overwriteBall GenesOK
  dsimp only
  refine ⟨rfl, rfl, ?_, ?_⟩ <;> intro z hz <;>
    simp only [List.mem_cons, List.not_mem_nil, or_false] at hz <;>
    rcases hz with h | h | h <;> rw [h]
  · exact ⟨(geneSlot_ok w 0 _ hw (by norm_num)).1,
      (geneSlot_ok w 0 _ hw (by norm_num)).2.1⟩
  · exact ⟨(geneSlot_ok w 1 _ hw (by norm_num)).1,
      (geneSlot_ok w 1 _ hw (by norm_num)).2.1⟩
  · exact ⟨(geneSlot_ok w 2 _ hw (by norm_num)).1,
      (geneSlot_ok w 2 _ hw (by norm_num)).2.1⟩
  · exact (geneSlot_ok w 0 _ hw (by norm_num)).2.2
  · exact (geneSlot_ok w 1 _ hw (by norm_num)).2.2
  · exact (geneSlot_ok w 2 _ hw (by norm_num)).2.2

theorem winner_mem {g : Generation} {w : Basketball}
    (h : Generation.winner g = some w) : w ∈ g.population := by
  simp only [Generation.winner] at h
  rcases hh : g.highest_fitness with _ | f <;> rw [hh] at h
  · exact absurd h (by simp)
  · exact List.mem_of_find?_eq_some h

theorem next_gen_ok {s : Solver} {r : Rng} {out : Solver × Rng}
    (hs : ∀ b ∈ s.generation.population, GenesOK b)
    (h : Solver.next_generation s r = some out) :
    ∀ b ∈ out.1.generation.population, GenesOK b := by
  simp only [Solver.next_generation] at h
  rcases hw : s.generation.winner with _ | w <;> rw [hw] at h
  · exact absurd h (by simp)
  · dsimp only at h
    injection h with h
    subst h
    intro b hb
    obtain ⟨a, _, r2, rfl⟩ := mapRng_mem (overwriteBall w) _ _ _ hb
    exact overwriteBall_ok w a r2 (hs w (winner_mem hw))

/-- C9: every gene ever held by an agent lies in the documented ranges and
the gene lists always hold exactly three entries: create_genes establishes
the property, apply_gene and the physics update preserve it, a fresh
Generation satisfies it throughout, Generation.update preserves it, and
Solver.next_generation re-establishes it for the new generation (copied
slots cite the winner of the replaced generation, fresh slots cite the
randint contract). -/
theorem c9_gene_bounds :
    (∀ (b : Basketball) (r : Rng), GenesOK (b.create_genes r).1) ∧
    (∀ b : Basketball, GenesOK b → GenesOK b.apply_gene) ∧
    (∀ (b b2 : Basketball) (dt : ℝ), Basketball.update b dt = some b2 →
       GenesOK b → GenesOK b2) ∧
    (∀ (n : ℕ) (r : Rng), ∀ b ∈ (Generation.init n r).1.population, GenesOK b) ∧
    (∀ (g : Generation) (dt : ℝ) (out : Bool × Generation),
       (∀ b ∈ g.population, GenesOK b) → Generation.update g dt = some out →
       ∀ b ∈ out.2.population, GenesOK b) ∧
    (∀ (s : Solver) (r : Rng) (out : Solver × Rng),
       (∀ b ∈ s.generation.population, GenesOK b) →
       Solver.next_generation s r = some out →
       ∀ b ∈ out.1.generation.population, GenesOK b) :=
  ⟨create_genes_ok, apply_gene_ok, fun _ _ _ h hb => update_ok h hb,
   init_genes_ok, fun _ _ _ hg h => gen_update_ok hg h,
   fun _ _ _ hs h => next_gen_ok hs h⟩

/-- Witness for C9 at the concrete agent c8ball. -/
theorem c9_gene_bounds_witness : GenesOK c8ball.apply_gene :=
  c9_gene_bounds.2.1 c8ball
    (by refine ⟨rfl, rfl, ?_, ?_⟩ <;> intro z hz <;>
      simp only [c8ball, List.mem_cons, List.not_mem_nil, or_false] at hz <;>
      rcases hz with h | h | h <;> subst h <;> omega)

theorem apply_gene_of_eq {b : Basketball} (h : b.gene_i = b.gene_dir.length) :
    b.apply_gene = b := by
  unfold Basketball.apply_gene
  rw [if_pos h]

theorem apply_gene_gi_of_ne {b : Basketball}
    (h : b.gene_i ≠ b.gene_dir.length) :
    b.apply_gene.gene_i = b.gene_i + 1 := by
  unfold Basketball.apply_gene
  rw [if_neg h]

theorem init_ball_shape (n : ℕ) (r : Rng) :
    ∀ b ∈ (Generation.init n r).1.population,
      b.gene_dir.length = 3 ∧ b.gene_strength.length = 3 ∧ b.gene_i = 1 := by
  intro b hb
  simp only [Generation.init, List.mem_map] at hb
  obtain ⟨c, hc, rfl⟩ := hb
  obtain ⟨a, _, r2, rfl⟩ := mapRng_mem Basketball.create_genes _ _ _ hc
  have h1 : (a.create_genes r2).1.gene_dir.length = 3 := rfl
  have h2 : (a.create_genes r2).1.gene_i = 0 := rfl
  refine ⟨?_, ?_, ?_⟩
  · rw [(apply_gene_genes _).1, h1]
  · rw [(apply_gene_genes _).2]
    rfl
  · rw [apply_gene_gi_of_ne (by rw [h2, h1]; omega), h2]

theorem gen_update_lockstep {g : Generation} {dt : ℝ} {out : Bool × Generation}
    (hg : GenInv g) (h : Generation.update g dt = some out) : GenInv out.2 := by
  obtain ⟨hlen, k, hk3, hk⟩ := hg
  simp only [Generation.update] at h
  split at h
  · rcases hp : g.population with _ | ⟨b0, rest⟩ <;> rw [hp] at h
    · exact absurd h (by simp)
    · dsimp only at h
      by_cases h3 : b0.gene_i = 3
      · rw [if_pos h3] at h
        injection h with h
        subst h
        exact ⟨fun b hb => hlen b (hp ▸ hb), k, hk3, fun b hb => hk b (hp ▸ hb)⟩
      · rw [if_neg h3] at h
        rcases hu : updBalls dt ((b0 :: rest).map Basketball.apply_gene) with
          _ | pop <;> rw [hu] at h
        · exact absurd h (by simp)
        · injection h with h
          subst h
          have hkne : k ≠ 3 := by
            intro hcontra
            exact h3 (hcontra ▸ hk b0 (hp ▸ List.mem_cons_self b0 rest))
          have hmem : ∀ b2 ∈ pop,
              b2.gene_dir.length = 3 ∧ b2.gene_strength.length = 3 ∧
                b2.gene_i = k + 1 := by
            intro b2 hb2
            obtain ⟨c, hc, hcu⟩ := (updBalls_facts dt _ _ hu).2 b2 hb2
            obtain ⟨a, ha, rfl⟩ := List.mem_map.mp hc
            have hal := hlen a (hp ▸ ha)
            have hak := hk a (hp ▸ ha)
            refine ⟨?_, ?_, ?_⟩
            · rw [(update_genes hcu).1, (apply_gene_genes a).1, hal.1]
            · rw [(update_genes hcu).2.1, (apply_gene_genes a).2, hal.2]
            · rw [(update_genes hcu).2.2,
                apply_gene_gi_of_ne (by rw [hak, hal.1]; omega), hak]
          exact ⟨fun b hb => ⟨(hmem b hb).1, (hmem b hb).2.1⟩, k + 1,
            by omega, fun b hb => (hmem b hb).2.2⟩
  · rcases hu : updBalls dt g.population with _ | pop <;> rw [hu] at h
    · exact absurd h (by simp)
    · injection h with h
      subst h
      have hmem : ∀ b2 ∈ pop,
          b2.gene_dir.length = 3 ∧ b2.gene_strength.length = 3 ∧
            b2.gene_i = k := by
        intro b2 hb2
        obtain ⟨c, hc, hcu⟩ := (updBalls_facts dt _ _ hu).2 b2 hb2
        have hcl := hlen c hc
        refine ⟨?_, ?_, ?_⟩
        · rw [(update_genes hcu).1, hcl.1]
        · rw [(update_genes hcu).2.1, hcl.2]
        · rw [(update_genes hcu).2.2, hk c hc]
      exact ⟨fun b hb => ⟨(hmem b hb).1, (hmem b hb).2.1⟩, k, hk3,
        fun b hb => (hmem b hb).2.2⟩

theorem init_lockstep (n : ℕ) (r : Rng) : GenInv (Generation.init n r).1 :=
  ⟨fun b hb => ⟨(init_ball_shape n r b hb).1, (init_ball_shape n r b hb).2.1⟩,
   1, by omega, fun b hb => (init_ball_shape n r b hb).2.2⟩

theorem next_gen_lockstep {s : Solver} {r : Rng} {out : Solver × Rng}
    (h : Solver.next_generation s r = some out) : GenInv out.1.generation := by
  simp only [Solver.next_generation] at h
  rcases hw : s.generation.winner with _ | w <;> rw [hw] at h
  · exact absurd h (by simp)
  · dsimp only at h
    injection h with h
    subst h
    have hmem : ∀ b ∈ (mapRng (overwriteBall w)
        (Generation.init s.population r).1.population
        (Generation.init s.population r).2).1,
        b.gene_dir.length = 3 ∧ b.gene_strength.length = 3 ∧ b.gene_i = 1 := by
      intro b hb
      obtain ⟨a, ha, r2, rfl⟩ := mapRng_mem (overwriteBall w) _ _ _ hb
      exact ⟨rfl, rfl,
        show a.gene_i = 1 from (init_ball_shape s.population r a ha).2.2⟩
    exact ⟨fun b hb => ⟨(hmem b hb).1, (hmem b hb).2.1⟩, 1, by omega,
      fun b hb => (hmem b hb).2.2⟩

theorem solver_update_lockstep {s : Solver} {dt : ℝ} {r : Rng}
    {out : Solver × Rng} (hg : GenInv s.generation)
    (h : Solver.update s dt r = some out) : GenInv out.1.generation := by
  simp only [Solver.update] at h
  rcases hu : s.generation.update dt with _ | br <;> rw [hu] at h
  · exact absurd h (by simp)
  · dsimp only at h
    split at h
    · exact next_gen_lockstep h
    · injection h with h
      subst h
      exact gen_update_lockstep hg hu

/-- C6: all agents of one Generation share the same gene index, between 0
and 3 inclusive, in every state reachable through the public operations:
construction establishes the invariant with shared index 1, and
Generation.update, Solver.next_generation and Solver.update preserve it. -/
theorem c6_lockstep_invariant :
    (∀ (n : ℕ) (r : Rng), GenInv (Generation.init n r).1) ∧
    (∀ (g : Generation) (dt : ℝ) (out : Bool × Generation), GenInv g →
       Generation.update g dt = some out → GenInv out.2) ∧
    (∀ (s : Solver) (r : Rng) (out : Solver × Rng),
       Solver.next_generation s r = some out → GenInv out.1.generation) ∧
    (∀ (s : Solver) (dt : ℝ) (r : Rng) (out : Solver × Rng),
       GenInv s.generation → Solver.update s dt r = some out →
       GenInv out.1.generation) :=
  ⟨init_lockstep, fun _ _ _ hg h => gen_update_lockstep hg h,
   fun _ _ _ h => next_gen_lockstep h,
   fun _ _ _ _ hg h => solver_update_lockstep hg h⟩

theorem gen_done_step (f : Vec2) (dt : ℝ) :
    Generation.update ⟨[qb f 3], 420⟩ dt = some (true, ⟨[qb f 3], 0⟩) := by
  simp only [Generation.update]
  split_ifs with hc hg
  · rfl
  · exact absurd rfl hg
  · exfalso
    apply hc
    norm_num [FPS, SHOT_DURATION]

/-- Witness for C6: a singleton done generation stepping its final tick. -/
theorem c6_lockstep_invariant_witness :
    GenInv ((true, (⟨[qb ⟨0, 0⟩ 3], 0⟩ : Generation)).2) :=
  c6_lockstep_invariant.2.1 ⟨[qb ⟨0, 0⟩ 3], 420⟩ 1 (true, ⟨[qb ⟨0, 0⟩ 3], 0⟩)
    ⟨by
      intro b hb
      rw [List.mem_singleton] at hb
      subst hb
      exact ⟨rfl, rfl⟩,
     3, by omega, by
      intro b hb
      rw [List.mem_singleton] at hb
      subst hb
      rfl⟩
    (gen_done_step ⟨0, 0⟩ 1)

theorem foldl_max_ge (l : List ℝ) :
    ∀ x : ℝ, x ≤ l.foldl max x ∧ ∀ a ∈ l, a ≤ l.foldl max x := by
  induction l with
  | nil => intro x; exact ⟨le_refl x, by simp⟩
  | cons a l ih =>
    intro x
    simp only [List.foldl_cons]
    refine ⟨le_trans (le_max_left x a) (ih (max x a)).1, ?_⟩
    intro b hb
    rcases List.mem_cons.mp hb with h | h
    · subst h
      exact le_trans (le_max_right x b) (ih (max x b)).1
    · exact (ih (max x a)).2 b h

theorem highest_spec {g : Generation} {f : ℝ}
    (hh : g.highest_fitness = some f) : ∀ b ∈ g.population, b.fitness ≤ f := by
  simp only [Generation.highest_fitness] at hh
  rcases hgp : g.population with _ | ⟨b0, rest⟩ <;> rw [hgp] at hh
  · simp at hh
  · simp only [List.map_cons] at hh
    injection hh with hh
    subst hh
    intro b hb
    rcases List.mem_cons.mp hb with h | h
    · subst h
      exact (foldl_max_ge _ _).1
    · exact (foldl_max_ge _ _).2 _ (List.mem_map_of_mem Basketball.fitness h)

theorem find_eq_some_decomp {p : Basketball → Bool} :
    ∀ {l : List Basketball} {a : Basketball}, l.find? p = some a →
      ∃ l1 l2, l = l1 ++ a :: l2 ∧ (∀ b ∈ l1, p b = false) ∧ p a = true := by
  intro l
  induction l with
  | nil => intro a h; simp [List.find?] at h
  | cons x l ih =>
    intro a h
    simp only [List.find?] at h
    rcases hx : p x with _ | _ <;> rw [hx] at h
    · obtain ⟨l1, l2, hd, hl1, ha⟩ := ih h
      refine ⟨x :: l1, l2, by rw [hd]; rfl, ?_, ha⟩
      intro b hb
      rcases List.mem_cons.mp hb with hbx | hbl
      · subst hbx; exact hx
      · exact hl1 b hbl
    · injection h with h
      subst h
      exact ⟨[], l, rfl, by simp, hx⟩

theorem winner_first {g : Generation} {w : Basketball}
    (h : g.winner = some w) :
    w ∈ g.population ∧ (∀ b ∈ g.population, b.fitness ≤ w.fitness) ∧
      ∃ l1 l2, g.population = l1 ++ w :: l2 ∧
        ∀ b ∈ l1, b.fitness ≠ w.fitness := by
  simp only [Generation.winner] at h
  rcases hh : g.highest_fitness with _ | f <;> rw [hh] at h
  · simp at h
  · have hmax := highest_spec hh
    obtain ⟨l1, l2, hdecomp, hl1, hw⟩ := find_eq_some_decomp h
    have hwf : w.fitness = f := of_decide_eq_true hw
    refine ⟨hdecomp ▸ List.mem_append.mpr (Or.inr (List.mem_cons_self w l2)),
      fun b hb => hwf ▸ hmax b hb, l1, l2, hdecomp, fun b hb => ?_⟩
    rw [hwf]
    exact of_decide_eq_false (hl1 b hb)

theorem next_gen_struct {s : Solver} {r : Rng} {out : Solver × Rng}
    (h : Solver.next_generation s r = some out) :
    ∃ w, s.generation.winner = some w ∧
      out.1.generation.population =
        (mapRng (overwriteBall w) (Generation.init s.population r).1.population
          (Generation.init s.population r).2).1 := by
  simp only [Solver.next_generation] at h
  rcases hw : s.generation.winner with _ | w <;> rw [hw] at h
  · simp at h
  · dsimp only at h
    injection h with h
    subst h
    exact ⟨w, rfl, rfl⟩

theorem geneSlot_inherit (w : Basketball) (i : ℕ) (r : Rng)
    (hlt : (rand01 r).1 < 3 / 4) :
    (geneSlot w i r).1 = (w.gene_dir.getD i 0, w.gene_strength.getD i 0) := by
  unfold geneSlot
  dsimp only
  rw [if_pos hlt, if_neg (no_mutation _), if_neg (no_mutation _)]

theorem geneSlot_fresh (w : Basketball) (i : ℕ) (r : Rng)
    (hge : ¬ (rand01 r).1 < 3 / 4) :
    (geneSlot w i r).1.1 = (randint 0 359 (rand01 r).2).1 ∧
    (geneSlot w i r).1.2 =
      (randint 65 2300 (randint 0 359 (rand01 r).2).2).1 ∧
    ∀ w2 : Basketball, geneSlot w2 i r = geneSlot w i r := by
  refine ⟨?_, ?_, ?_⟩
  · unfold geneSlot
    dsimp only
    rw [if_neg hge]
  · unfold geneSlot
    dsimp only
    rw [if_neg hge]
  · intro w2
    unfold geneSlot
    dsimp only
    rw [if_neg hge, if_neg hge]

/-- C3: with MUTATION_CHANCE = 0, next_generation takes the winner - the
first agent in iteration order whose fitness attains the population maximum
- from the generation being replaced, and rebuilds every new agent's genes
slot by slot: an inherit draw below 0.75 copies both winner components for
that slot, any other draw produces fresh uniform randint values in [0, 359]
and [65, 2300] that do not depend on the winner at all. -/
theorem c3_selection_inheritance :
    (∀ (g : Generation) (w : Basketball), g.winner = some w →
       w ∈ g.population ∧ (∀ b ∈ g.population, b.fitness ≤ w.fitness) ∧
       ∃ l1 l2, g.population = l1 ++ w :: l2 ∧
         ∀ b ∈ l1, b.fitness ≠ w.fitness) ∧
    (∀ (s : Solver) (r : Rng) (out : Solver × Rng),
       Solver.next_generation s r = some out →
       ∃ w, s.generation.winner = some w ∧
         out.1.generation.population =
           (mapRng (overwriteBall w)
             (Generation.init s.population r).1.population
             (Generation.init s.population r).2).1) ∧
    (∀ (w : Basketball) (i : ℕ) (r : Rng),
       ((rand01 r).1 < 3 / 4 →
          (geneSlot w i r).1 =
            (w.gene_dir.getD i 0, w.gene_strength.getD i 0)) ∧
       (¬ (rand01 r).1 < 3 / 4 →
          (0 ≤ (geneSlot w i r).1.1 ∧ (geneSlot w i r).1.1 ≤ 359 ∧
            65 ≤ (geneSlot w i r).1.2 ∧ (geneSlot w i r).1.2 ≤ 2300) ∧
          ∀ w2 : Basketball, geneSlot w2 i r = geneSlot w i r)) := by
  refine ⟨fun g w h => winner_first h, fun s r out h => next_gen_struct h,
    fun w i r => ⟨geneSlot_inherit w i r, fun hge => ?_⟩⟩
  obtain ⟨hd, hs, hind⟩ := geneSlot_fresh w i r hge
  refine ⟨⟨?_, ?_, ?_, ?_⟩, hind⟩
  · rw [hd]; exact (randint_bounds 0 359 _ (by norm_num)).1
  · rw [hd]; exact (randint_bounds 0 359 _ (by norm_num)).2
  · rw [hs]; exact (randint_bounds 65 2300 _ (by norm_num)).1
  · rw [hs]; exact (randint_bounds 65 2300 _ (by norm_num)).2

/-- Witness for C3: the inherit branch on the all-zero stream copies the
winner's slot, the fresh branch on the 900 stream ignores the winner. -/
theorem c3_selection_inheritance_witness :
    (geneSlot c8ball 0 rng0).1 =
      (c8ball.gene_dir.getD 0 0, c8ball.gene_strength.getD 0 0) ∧
    (0 ≤ (geneSlot c8ball 0 rng9).1.1 ∧ (geneSlot c8ball 0 rng9).1.1 ≤ 359 ∧
      65 ≤ (geneSlot c8ball 0 rng9).1.2 ∧
      (geneSlot c8ball 0 rng9).1.2 ≤ 2300) ∧
    ∀ w2 : Basketball, geneSlot w2 0 rng9 = geneSlot c8ball 0 rng9 :=
  ⟨(c3_selection_inheritance.2.2 c8ball 0 rng0).1
     (by norm_num [rand01, rng0]),
   ((c3_selection_inheritance.2.2 c8ball 0 rng9).2
     (by norm_num [rand01, rng9])).1,
   ((c3_selection_inheritance.2.2 c8ball 0 rng9).2
     (by norm_num [rand01, rng9])).2⟩

theorem mapRng_overwrite_proj (w : Basketball) :
    ∀ (l : List Basketball) (r : Rng),
      ((mapRng (overwriteBall w) l r).1).map (fun b => (b.force, b.gene_i)) =
        l.map (fun b => (b.force, b.gene_i)) := by
  intro l
  induction l with
  | nil => intro r; rfl
  | cons a l ih =>
    intro r
    simp only [mapRng, List.map_cons]
    rw [ih]
    rfl

theorem init_ball_gene0 (n : ℕ) (r : Rng) :
    ∀ b ∈ (Generation.init n r).1.population,
      b.gene_i = 1 ∧
        b.force = Vec2.rotate ⟨1, 0⟩ (b.gene_dir.getD 0 0 : ℝ) *
          ((b.gene_strength.getD 0 0 : ℤ) : ℝ) := by
  intro b hb
  have hshape := init_ball_shape n r b hb
  simp only [Generation.init, List.mem_map] at hb
  obtain ⟨c, hc, rfl⟩ := hb
  obtain ⟨a, _, r2, rfl⟩ := mapRng_mem Basketball.create_genes _ _ _ hc
  have hne : (a.create_genes r2).1.gene_i ≠
      (a.create_genes r2).1.gene_dir.length := by
    rw [show (a.create_genes r2).1.gene_i = 0 from rfl,
      show (a.create_genes r2).1.gene_dir.length = 3 from rfl]
    omega
  refine ⟨hshape.2.2, ?_⟩
  unfold Basketball.apply_gene
  rw [if_neg hne]
  rfl

theorem apply_gene_step {b : Basketball} (h : b.gene_i < b.gene_dir.length) :
    b.apply_gene.force = Vec2.rotate ⟨1, 0⟩ (b.gene_dir.getD b.gene_i 0 : ℝ) *
      ((b.gene_strength.getD b.gene_i 0 : ℤ) : ℝ) ∧
    b.apply_gene.gene_i = b.gene_i + 1 := by
  unfold Basketball.apply_gene
  rw [if_neg (by omega)]
  exact ⟨rfl, rfl⟩

theorem apply_chain {b : Basketball} (h1 : b.gene_i = 1)
    (hd : b.gene_dir.length = 3) :
    b.apply_gene.gene_i = 2 ∧
    b.apply_gene.force = Vec2.rotate ⟨1, 0⟩ (b.gene_dir.getD 1 0 : ℝ) *
      ((b.gene_strength.getD 1 0 : ℤ) : ℝ) ∧
    b.apply_gene.apply_gene.force =
      Vec2.rotate ⟨1, 0⟩ (b.gene_dir.getD 2 0 : ℝ) *
        ((b.gene_strength.getD 2 0 : ℤ) : ℝ) ∧
    b.apply_gene.apply_gene.apply_gene = b.apply_gene.apply_gene := by
  have g1 := apply_gene_genes b
  have s1 := apply_gene_step (b := b) (by rw [h1, hd]; omega)
  have s2 := apply_gene_step (b := b.apply_gene)
    (by rw [s1.2, g1.1, h1, hd]; omega)
  have g2 := apply_gene_genes b.apply_gene
  refine ⟨by rw [s1.2, h1], by rw [s1.1, h1], ?_, ?_⟩
  · rw [s2.1, g1.1, g1.2, s1.2, h1]
  · exact apply_gene_of_eq
      (by rw [s2.2, s1.2, h1, g2.1, g1.1, hd])

/-- C4: after Solver.next_generation, every agent of the new generation
already has gene_index 1 and carries the force computed by the constructor
from the throwaway random gene 0 that the overwrite then discarded; each
later apply_gene call reads only slots 1 and 2 and the third is a no-op, so
the inherited slot 0 is never applied. -/
theorem c4_stale_first_gene :
    ∀ (s : Solver) (r : Rng) (out : Solver × Rng),
      Solver.next_generation s r = some out →
      (out.1.generation.population.map (fun b => (b.force, b.gene_i)) =
        (Generation.init s.population r).1.population.map
          (fun b => (b.force, b.gene_i))) ∧
      (∀ b0 ∈ (Generation.init s.population r).1.population,
         b0.gene_i = 1 ∧
           b0.force = Vec2.rotate ⟨1, 0⟩ (b0.gene_dir.getD 0 0 : ℝ) *
             ((b0.gene_strength.getD 0 0 : ℤ) : ℝ)) ∧
      (∀ b2 ∈ out.1.generation.population,
         b2.gene_i = 1 ∧ b2.gene_dir.length = 3 ∧
         b2.apply_gene.gene_i = 2 ∧
         b2.apply_gene.force =
           Vec2.rotate ⟨1, 0⟩ (b2.gene_dir.getD 1 0 : ℝ) *
             ((b2.gene_strength.getD 1 0 : ℤ) : ℝ) ∧
         b2.apply_gene.apply_gene.force =
           Vec2.rotate ⟨1, 0⟩ (b2.gene_dir.getD 2 0 : ℝ) *
             ((b2.gene_strength.getD 2 0 : ℤ) : ℝ) ∧
         b2.apply_gene.apply_gene.apply_gene = b2.apply_gene.apply_gene) := by
  intro s r out h
  obtain ⟨w, -, hpop⟩ := next_gen_struct h
  refine ⟨by rw [hpop]; exact mapRng_overwrite_proj w _ _,
    init_ball_gene0 s.population r, ?_⟩
  intro b2 hb2
  rw [hpop] at hb2
  obtain ⟨a, ha, r2, rfl⟩ := mapRng_mem (overwriteBall w) _ _ _ hb2
  have hgi : (overwriteBall w a r2).1.gene_i = 1 :=
    (show (overwriteBall w a r2).1.gene_i = a.gene_i from rfl) ▸
      (init_ball_shape s.population r a ha).2.2
  have hlen : (overwriteBall w a r2).1.gene_dir.length = 3 := rfl
  obtain ⟨k1, k2, k3, k4⟩ := apply_chain hgi hlen
  exact ⟨hgi, hlen, k1, k2, k3, k4⟩

theorem init_eval : Generation.init 1 rng0 = (⟨[c4ballInit], 0⟩, (6, rng0.2)) :=
  rfl

theorem winner_singleton (b : Basketball) (t : ℕ) :
    Generation.winner ⟨[b], t⟩ = some b := by
  simp only [Generation.winner, Generation.highest_fitness, List.map_cons,
    List.map_nil, List.foldl_nil, List.find?]
  simp

theorem geneSlot_rng (w : Basketball) (i : ℕ) (r : Rng) :
    (geneSlot w i r).2 = (r.1 + 3, r.2) := by
  unfold geneSlot
  dsimp only
  by_cases h1 : (rand01 r).1 < 3 / 4
  · rw [if_pos h1, if_neg (no_mutation _), if_neg (no_mutation _)]
    rfl
  · rw [if_neg h1]
    rfl

theorem overwrite_eval :
    overwriteBall (qb ⟨0, 0⟩ 1) c4ballInit (6, rng0.2) =
      (c4ballInit, (15, rng0.2)) := by
  have hc : ∀ k : ℕ, (rand01 (k, rng0.2)).1 < 3 / 4 := by
    intro k
    norm_num [rand01, rng0]
  unfold overwriteBall
  dsimp only
  rw [geneSlot_rng, geneSlot_rng]
  rw [geneSlot_inherit _ _ _ (hc 6)]
  rw [geneSlot_rng]
  rw [geneSlot_inherit _ _ _ (hc 9), geneSlot_inherit _ _ _ (hc 12)]
  rfl

theorem c4_eval : Solver.next_generation c4solver rng0 = some c4out := by
  have hw : Generation.winner c4solver.generation = some (qb ⟨0, 0⟩ 1) :=
    winner_singleton (qb ⟨0, 0⟩ 1) 0
  simp only [Solver.next_generation, hw]
  rw [show c4solver.population = 1 from rfl, init_eval]
  simp only [mapRng]
  rw [overwrite_eval]
  rfl

/-- Witness for C4: the concrete one-agent advance on the all-zero stream. -/
theorem c4_stale_first_gene_witness :
    c4ballInit.gene_i = 1 ∧
      c4ballInit.apply_gene.apply_gene.apply_gene =
        c4ballInit.apply_gene.apply_gene := by
  have h := c4_stale_first_gene c4solver rng0 c4out c4_eval
  have hm : c4ballInit ∈ c4out.1.generation.population :=
    List.mem_singleton.mpr rfl
  obtain ⟨h1, -, -, -, -, h6⟩ := h.2.2 c4ballInit hm
  exact ⟨h1, h6⟩

theorem timer_cond (t : ℕ) :
    ((t : ℚ) > (FPS : ℚ) * SHOT_DURATION) ↔ 420 < t := by
  have h : (FPS : ℚ) * SHOT_DURATION = ((420 : ℕ) : ℚ) := by
    norm_num [FPS, SHOT_DURATION]
  rw [h]
  exact Nat.cast_lt

theorem stepSim {s : ℕ × ℕ} {g : Generation} {dt : ℝ} {b : Bool}
    {g2 : Generation} (hinv : schedInv s g)
    (h : Generation.update g dt = some (b, g2)) :
    b = (geneStep s).1 ∧ schedInv (geneStep s).2 g2 := by
  obtain ⟨hne, hlen, hgi, ht⟩ := hinv
  simp only [Generation.update] at h
  unfold geneStep
  by_cases hc : s.1 + 1 > 420
  · have hcq : ((g.last_gene + 1 : ℕ) : ℚ) > (FPS : ℚ) * SHOT_DURATION := by
      rw [ht]
      exact (timer_cond _).mpr hc
    rw [if_pos hcq] at h
    rw [if_pos hc]
    rcases hp : g.population with _ | ⟨b0, rest⟩
    · exact absurd hp hne
    · rw [hp] at h
      dsimp only at h
      by_cases h3 : s.2 = 3
      · rw [if_pos (by rw [hgi b0 (hp ▸ List.mem_cons_self b0 rest), h3])] at h
        injection h with h
        rw [Prod.mk.injEq] at h
        obtain ⟨hb, hg2⟩ := h
        subst hb
        subst hg2
        rw [if_pos h3]
        exact ⟨rfl, by simp, fun b hb => hlen b (hp ▸ hb),
          fun b hb => hgi b (hp ▸ hb), rfl⟩
      · rw [if_neg (fun hcontra =>
          h3 (by rw [← hgi b0 (hp ▸ List.mem_cons_self b0 rest)]; exact hcontra))] at h
        rcases hu : updBalls dt ((b0 :: rest).map Basketball.apply_gene) with
          _ | pop <;> rw [hu] at h
        · exact absurd h (by simp)
        · injection h with h
          rw [Prod.mk.injEq] at h
          obtain ⟨hb, hg2⟩ := h
          subst hb
          subst hg2
          rw [if_neg h3]
          obtain ⟨hulen, humem⟩ := updBalls_facts dt _ _ hu
          refine ⟨rfl, ?_, ?_, ?_, rfl⟩
          · intro hcontra
            have hpe : pop = [] := hcontra
            rw [hpe] at hulen
            simp at hulen
          · intro b2 hb2
            obtain ⟨c, hc2, hcu⟩ := humem b2 hb2
            obtain ⟨a, ha, rfl⟩ := List.mem_map.mp hc2
            have hal := hlen a (hp ▸ ha)
            refine ⟨?_, ?_⟩
            · rw [(update_genes hcu).1, (apply_gene_genes a).1, hal.1]
            · rw [(update_genes hcu).2.1, (apply_gene_genes a).2, hal.2]
          · intro b2 hb2
            obtain ⟨c, hc2, hcu⟩ := humem b2 hb2
            obtain ⟨a, ha, rfl⟩ := List.mem_map.mp hc2
            rw [(update_genes hcu).2.2,
              apply_gene_gi_of_ne
                (by rw [hgi a (hp ▸ ha), (hlen a (hp ▸ ha)).1]; omega),
              hgi a (hp ▸ ha)]
  · have hcq : ¬ ((g.last_gene + 1 : ℕ) : ℚ) > (FPS : ℚ) * SHOT_DURATION := by
      rw [ht]
      exact fun hcontra => hc ((timer_cond _).mp hcontra)
    rw [if_neg hcq] at h
    rw [if_neg hc]
    rcases hu : updBalls dt g.population with _ | pop <;> rw [hu] at h
    · exact absurd h (by simp)
    · injection h with h
      rw [Prod.mk.injEq] at h
      obtain ⟨hb, hg2⟩ := h
      subst hb
      subst hg2
      obtain ⟨hulen, humem⟩ := updBalls_facts dt _ _ hu
      refine ⟨rfl, ?_, ?_, ?_, by rw [ht]⟩
      · intro hcontra
        have hpe : pop = [] := hcontra
        rw [hpe] at hulen
        rcases hp : g.population with _ | ⟨b0, rest⟩
        · exact absurd hp hne
        · rw [hp] at hulen
          simp at hulen
      · intro b2 hb2
        obtain ⟨c, hc2, hcu⟩ := humem b2 hb2
        have hcl := hlen c hc2
        exact ⟨by rw [(update_genes hcu).1, hcl.1],
          by rw [(update_genes hcu).2.1, hcl.2]⟩
      · intro b2 hb2
        obtain ⟨c, hc2, hcu⟩ := humem b2 hb2
        rw [(update_genes hcu).2.2, hgi c hc2]

theorem runSim (dt : ℝ) :
    ∀ (m : ℕ) (s : ℕ × ℕ) (g : Generation) (bs : List Bool) (g1 : Generation),
      schedInv s g → Generation.run dt g m = some (bs, g1) →
      schedInv (iterStep m s) g1 ∧
        (stepsAllFalse m s = true → ∀ b ∈ bs, b = false) := by
  intro m
  induction m with
  | zero =>
    intro s g bs g1 hinv h
    simp only [Generation.run] at h
    injection h with h
    rw [Prod.mk.injEq] at h
    obtain ⟨hb, hg⟩ := h
    subst hb
    subst hg
    exact ⟨hinv, by simp⟩
  | succ m ih =>
    intro s g bs g1 hinv h
    simp only [Generation.run] at h
    rcases hu : Generation.update g dt with _ | br <;> rw [hu] at h
    · exact absurd h (by simp)
    · dsimp only at h
      rcases hr : Generation.run dt br.2 m with _ | rest <;> rw [hr] at h
      · exact absurd h (by simp)
      · dsimp only at h
        injection h with h
        rw [Prod.mk.injEq] at h
        obtain ⟨hb, hg⟩ := h
        subst hb
        subst hg
        obtain ⟨hbeq, hinv2⟩ := stepSim hinv
          (show Generation.update g dt = some (br.1, br.2) from hu)
        obtain ⟨hinv3, hfalse⟩ := ih (geneStep s).2 br.2 rest.1 rest.2 hinv2 hr
        refine ⟨hinv3, ?_⟩
        intro hall b hbmem
        simp only [stepsAllFalse, Bool.and_eq_true, Bool.not_eq_true'] at hall
        rcases List.mem_cons.mp hbmem with hbh | hbt
        · rw [hbh, hbeq, hall.1]
        · exact hfalse hall.2 b hbt

theorem done_step {g : Generation} {dt : ℝ} (hinv : schedInv (420, 3) g) :
    Generation.update g dt = some (true, ⟨g.population, 0⟩) := by
  obtain ⟨hne, hlen, hgi, ht⟩ := hinv
  simp only [Generation.update]
  rw [ht]
  rw [if_pos (show ((420 + 1 : ℕ) : ℚ) > (FPS : ℚ) * SHOT_DURATION from
    (timer_cond _).mpr (by omega))]
  rcases hp : g.population with _ | ⟨b0, rest⟩
  · exact absurd hp hne
  · dsimp only
    rw [if_pos (hgi b0 (hp ▸ List.mem_cons_self b0 rest))]

theorem mapRng_length (f : Basketball → Rng → Basketball × Rng) :
    ∀ (l : List Basketball) (r : Rng), (mapRng f l r).1.length = l.length := by
  intro l
  induction l with
  | nil => intro r; rfl
  | cons a l ih =>
    intro r
    simp only [mapRng, List.length_cons]
    rw [ih]

theorem init_fresh (n : ℕ) (r : Rng) (hn : 1 ≤ n) :
    freshSpec (Generation.init n r).1 := by
  refine ⟨?_, rfl, fun b hb => init_ball_shape n r b hb⟩
  have hl : (Generation.init n r).1.population.length = n := by
    simp only [Generation.init, List.length_map, mapRng_length,
      List.length_replicate]
  intro hcontra
  rw [hcontra] at hl
  simp at hl
  omega

set_option maxRecDepth 100000 in
/-- C1: a freshly constructed Generation satisfies freshSpec, and from any
freshSpec state the first 1262 completed calls to update all return false
while the 1263rd call then returns true with the shot timer reset and the
population untouched (no physics runs on the returning-true call). -/
theorem c1_completion_timing :
    (∀ (n : ℕ) (r : Rng), 1 ≤ n → freshSpec (Generation.init n r).1) ∧
    (∀ (g : Generation) (dt : ℝ) (bs : List Bool) (g1 : Generation),
       freshSpec g → Generation.run dt g 1262 = some (bs, g1) →
       (∀ b ∈ bs, b = false) ∧
         Generation.update g1 dt = some (true, ⟨g1.population, 0⟩)) := by
  refine ⟨init_fresh, ?_⟩
  intro g dt bs g1 hfresh hrun
  have hinv : schedInv (0, 1) g := by
    obtain ⟨hne, ht, hball⟩ := hfresh
    exact ⟨hne, fun b hb => ⟨(hball b hb).1, (hball b hb).2.1⟩,
      fun b hb => (hball b hb).2.2, ht⟩
  obtain ⟨hinv2, hfalse⟩ := runSim dt 1262 (0, 1) g bs g1 hinv hrun
  have h1 : stepsAllFalse 1262 (0, 1) = true := by decide
  have h2 : iterStep 1262 (0, 1) = (420, 3) := by decide
  exact ⟨hfalse h1, done_step (h2 ▸ hinv2)⟩

theorem apply_gene_kin (b : Basketball) :
    b.apply_gene.position = b.position ∧ b.apply_gene.velocity = b.velocity := by
  unfold Basketball.apply_gene
  split <;> exact ⟨rfl, rfl⟩

theorem quiet_ball_step (b : Basketball) (hp : b.position = Vec2.mk 0.5 6.5)
    (hv : b.velocity = Vec2.mk 0 0) :
    Basketball.update b 0 =
      some ⟨Vec2.mk 0.5 6.5, Vec2.mk 0 0, Vec2.mk 0 0,
        b.gene_dir, b.gene_strength, b.gene_i⟩ := by
  simp only [Basketball.update, hp, hv, Vec2.length, Vec2.add_x, Vec2.add_y,
    Vec2.sub_x, Vec2.sub_y, Vec2.hmul_x, Vec2.hmul_y, Vec2.mk_x, Vec2.mk_y,
    mul_zero, zero_mul, add_zero, zero_add, ite_self]
  norm_num [invmass, mass, radius, GRAVITY, AIR_FRICTION, elasticity,
    WINDOW_WIDTH, WINDOW_HEIGHT, UNIT]
  intro h
  exfalso
  rw [show (100 : ℝ) = 10 ^ 2 by norm_num, Real.sqrt_sq (by norm_num)] at h
  rw [div_le_iff₀ (by norm_num)] at h
  have hlt := (Real.lt_sqrt (by norm_num : (0 : ℝ) ≤ 98 / 125 * 10)).mpr
    (show ((98 : ℝ) / 125 * 10) ^ 2 < 3393 by norm_num)
  linarith

theorem updBalls_singleton (b b2 : Basketball)
    (h : Basketball.update b 0 = some b2) : updBalls 0 [b] = some [b2] := by
  simp only [updBalls, h]

theorem gen_quiet_tick (k t : ℕ) (ht : t + 1 ≤ 420) :
    Generation.update (genW k t) 0 = some (false, genW k (t + 1)) := by
  simp only [Generation.update, genW]
  rw [if_neg (fun hc => absurd ((timer_cond (t + 1)).mp hc) (by omega))]
  rw [updBalls_singleton (qb ⟨0, 0⟩ k) (qb ⟨0, 0⟩ k)
    (quiet_ball_step (qb ⟨0, 0⟩ k) rfl rfl)]

theorem gen_roll (k : ℕ) (hk : k < 3) :
    Generation.update (genW k 420) 0 = some (false, genW (k + 1) 0) := by
  have hag : Basketball.update ((qb ⟨0, 0⟩ k).apply_gene) 0 =
      some (qb ⟨0, 0⟩ (k + 1)) := by
    have hres := quiet_ball_step ((qb ⟨0, 0⟩ k).apply_gene)
      ((apply_gene_kin _).1) ((apply_gene_kin _).2)
    rw [hres, (apply_gene_genes _).1, (apply_gene_genes _).2,
      apply_gene_gi_of_ne
        (show (qb ⟨0, 0⟩ k).gene_i ≠ (qb ⟨0, 0⟩ k).gene_dir.length from by
          show k ≠ 3
          omega)]
    rfl
  simp only [Generation.update, genW]
  rw [if_pos ((timer_cond (420 + 1)).mpr (by omega))]
  rw [if_neg (show ¬ (qb ⟨0, 0⟩ k).gene_i = 3 from by show ¬ k = 3; omega)]
  rw [show List.map Basketball.apply_gene [qb ⟨0, 0⟩ k] =
    [(qb ⟨0, 0⟩ k).apply_gene] from rfl]
  rw [updBalls_singleton _ _ hag]

theorem run_stretch (k : ℕ) : ∀ (m t : ℕ), t + m ≤ 420 →
    Generation.run 0 (genW k t) m =
      some (List.replicate m false, genW k (t + m)) := by
  intro m
  induction m with
  | zero => intro t ht; rfl
  | succ m ih =>
    intro t ht
    simp only [Generation.run]
    rw [gen_quiet_tick k t (by omega)]
    dsimp only
    rw [ih (t + 1) (by omega)]
    dsimp only
    rw [show t + 1 + m = t + (m + 1) from by omega]
    simp [List.replicate_succ]

theorem run_append (dt : ℝ) :
    ∀ (m n : ℕ) (g : Generation) (bs : List Bool) (g1 : Generation),
      Generation.run dt g m = some (bs, g1) →
      ∀ (cs : List Bool) (g2 : Generation),
        Generation.run dt g1 n = some (cs, g2) →
        Generation.run dt g (m + n) = some (bs ++ cs, g2) := by
  intro m
  induction m with
  | zero =>
    intro n g bs g1 h cs g2 h2
    simp only [Generation.run] at h
    injection h with h
    rw [Prod.mk.injEq] at h
    obtain ⟨hb, hg⟩ := h
    subst hb
    subst hg
    rw [Nat.zero_add]
    simpa using h2
  | succ m ih =>
    intro n g bs g1 h cs g2 h2
    simp only [Generation.run] at h
    rcases hu : Generation.update g dt with _ | br <;> rw [hu] at h
    · exact absurd h (by simp)
    · dsimp only at h
      rcases hr : Generation.run dt br.2 m with _ | rest <;> rw [hr] at h
      · exact absurd h (by simp)
      · dsimp only at h
        injection h with h
        rw [Prod.mk.injEq] at h
        obtain ⟨hb, hg⟩ := h
        subst hb
        subst hg
        rw [show m + 1 + n = (m + n) + 1 from by omega]
        simp only [Generation.run]
        rw [hu]
        dsimp only
        rw [ih n br.2 rest.1 rest.2 hr cs g2 h2]
        dsimp only
        simp

theorem roll_run (k : ℕ) (hk : k < 3) :
    Generation.run 0 (genW k 420) 1 = some ([false], genW (k + 1) 0) := by
  simp only [Generation.run]
  rw [gen_roll k hk]

/-- Witness for C1: a singleton fresh-shaped generation run for 1262 ticks
at dt = 0; every call returns false and the 1263rd returns true with the
timer reset and the population untouched. -/
theorem c1_completion_timing_witness :
    freshSpec (Generation.init 1 rng0).1 ∧
    freshSpec (genW 1 0) ∧
    Generation.run 0 (genW 1 0) 1262 = some (bsW, genW 3 420) ∧
    (∀ b ∈ bsW, b = false) ∧
    Generation.update (genW 3 420) 0 =
      some (true, ⟨(genW 3 420).population, 0⟩) := by
  have hfresh : freshSpec (genW 1 0) := by
    refine ⟨by simp [genW], rfl, ?_⟩
    intro b hb
    simp only [genW, List.mem_singleton] at hb
    subst hb
    exact ⟨rfl, rfl, rfl⟩
  have r1 := run_stretch 1 420 0 (by omega)
  have s1 := roll_run 1 (by omega)
  have r2 := run_stretch 2 420 0 (by omega)
  have s2 := roll_run 2 (by omega)
  have r3 := run_stretch 3 420 0 (by omega)
  have h421 := run_append 0 420 1 _ _ _ r1 _ _ s1
  have h841 := run_append 0 421 420 _ _ _ h421 _ _ r2
  have h842 := run_append 0 841 1 _ _ _ h841 _ _ s2
  have h1262 : Generation.run 0 (genW 1 0) 1262 = some (bsW, genW 3 420) :=
    run_append 0 842 420 _ _ _ h842 _ _ r3
  have hmain := c1_completion_timing.2 (genW 1 0) 0 bsW (genW 3 420)
    hfresh h1262
  exact ⟨c1_completion_timing.1 1 rng0 (by omega), hfresh, h1262,
    hmain.1, hmain.2⟩
